import Mathlib

/-!
Verification of the dashbot-openclaw channel plugin (TypeScript) against its
natural-language specification.

The development shallowly embeds the plugin source:

* `Json` models the values produced by `JSON.parse` on inbound socket frames.
* `ConnState`, `handleIncoming`, `sendResponse`, `sendStatus` and the
  subscribe commands embed the `DashbotConnection` class of
  `src/connection.ts`; side effects (outbound frames, callback invocations,
  console warnings) are returned explicitly.
* `World`, `Ev`, `step` and `run` give an event semantics for the socket
  lifecycle (connect, disconnect, socket close, reconnect timers, inbound
  frames), with sockets and timers named by freshly allocated numbers.
* `buildWsUrl`, `chunker` and `encodeURIComponent` embed the URL builder of
  `src/connection.ts` and the outbound chunker of `src/channel.ts`,
  modelling a JavaScript string as its list of characters.
* `createOutbound`, `postCardRequest` and `postCardResult` embed
  `createOutbound`/`postCard` of the outbound module (the variant that
  exposes `sendCard`), with the `fetch` outcome passed in explicitly.
* `statusReporterMethods` lists the methods of the `StatusReporter` class of
  `src/status-reporter.ts`, used to decide whether a method invocation on the
  reporter resolves or throws a `TypeError`.

JavaScript exceptions (the `in` operator on a primitive, `JSON.parse` on
invalid input, a missing method) are modelled with `Except JsError`.
-/

/-- A JavaScript runtime exception, as relevant to the embedded code. -/
inductive JsError where
  /-- A `TypeError`, e.g. from the `in` operator on a primitive or from
  invoking a property that is not a function. -/
  | typeError (msg : String)
  /-- A `SyntaxError` from `JSON.parse` on input that is not valid JSON. -/
  | syntaxError (msg : String)
deriving DecidableEq, Repr

/-- The values `JSON.parse` can produce. Objects are duplicate-free
association lists in source order. -/
inductive Json where
  | null : Json
  | bool (b : Bool) : Json
  | num (n : Int) : Json
  | str (s : String) : Json
  | arr (elems : List Json) : Json
  | obj (fields : List (String × Json)) : Json
deriving Repr

/-- Property read `value[key]` as the embedded code uses it: on an object it
is the field (or `undefined`, modelled as `none`); on every other value the
keys read by the code (`type`, `identifier`, `message`, `card`, `id`) are
absent, so the read yields `undefined`. -/
def jsGetProp : Json → String → Option Json
  | Json.obj fields, k => fields.lookup k
  | _, _ => none

/-- The JavaScript `in` operator, `key in value`: a `TypeError` on a
primitive; field membership on an object. On an array it is `false` for the
keys the embedded code queries (`type`, `message`, `identifier`), since those
are neither indices nor array properties. -/
def jsHasProp : Json → String → Except JsError Bool
  | Json.obj fields, k => Except.ok ((fields.lookup k).isSome)
  | Json.arr _, _ => Except.ok false
  | _, k =>
      Except.error (JsError.typeError ("Cannot use in operator to search for " ++ k))

/-- `true` exactly on the `Json` values on which the `in` operator does not
raise (objects and arrays). -/
def objectLike : Json → Bool
  | Json.obj _ => true
  | Json.arr _ => true
  | _ => false

/-- `CHAT_IDENTIFIER = JSON.stringify({ channel: "ChatChannel" })` from
`src/connection.ts`. -/
def chatIdentifier : String := "\x7b\"channel\":\"ChatChannel\"\x7d"

/-- `CARDS_IDENTIFIER = JSON.stringify({ channel: "CardsChannel" })` from
`src/connection.ts`. -/
def cardsIdentifier : String := "\x7b\"channel\":\"CardsChannel\"\x7d"

/-- An outbound cable frame (`CableCommand` in `src/types.ts`). The `data`
payload is kept as the inner JSON object rather than its serialization;
`JSON.stringify` on the sending side and `JSON.parse` on the reading side
are inverse, so the decoded payload is the object itself. -/
structure CableCommand where
  command : String
  identifier : String
  data : Option Json
deriving Repr

/-- A callback invocation performed by `handleIncoming`: the chat-message
handler (`this.onMessage`) or the card handler (`this.onCardEvent`). -/
inductive Callback where
  | onMessage (msg : Json)
  | onCardEvent (msg : Json)
deriving Repr

/-- The mutable fields of a `DashbotConnection`. The socket handle and the
reconnect timer handle are named by numbers (`none` = the field is `null`);
`cardHandlerSet` records whether `setCardHandler` has installed a card
handler. -/
structure ConnState where
  ws : Option Nat
  chatSubscribed : Bool
  cardsSubscribed : Bool
  reconnectTimer : Option Nat
  cardHandlerSet : Bool
deriving DecidableEq, Repr

/-- The state of a freshly constructed `DashbotConnection`. -/
def initConn : ConnState :=
  { ws := none, chatSubscribed := false, cardsSubscribed := false,
    reconnectTimer := none, cardHandlerSet := false }

/-- The frame sent by `subscribeChatChannel`. -/
def subscribeChatCmd : CableCommand :=
  { command := "subscribe", identifier := chatIdentifier, data := none }

/-- The frame sent by `subscribeCardsChannel`. -/
def subscribeCardsCmd : CableCommand :=
  { command := "subscribe", identifier := cardsIdentifier, data := none }

/-- The frames sent on a welcome: `subscribeChatChannel()` then
`subscribeCardsChannel()`, each of which returns without sending when
`this.ws` is `null`. -/
def welcomeSends (c : ConnState) : List CableCommand :=
  (if c.ws.isSome then [subscribeChatCmd] else []) ++
    (if c.ws.isSome then [subscribeCardsCmd] else [])

/-- `DashbotConnection.handleIncoming` from `src/connection.ts`, lines
94-125, returning the updated state, the outbound frames sent, and the
callbacks invoked, or the JavaScript exception it raises. -/
def handleIncoming (c : ConnState) (data : Json) :
    Except JsError (ConnState × List CableCommand × List Callback) :=
  match jsHasProp data "type" with
  | Except.error e => Except.error e
  | Except.ok true =>
      match jsGetProp data "type" with
      | some (Json.str "welcome") => Except.ok (c, welcomeSends c, [])
      | some (Json.str "confirm_subscription") =>
          match jsGetProp data "identifier" with
          | some (Json.str id) =>
              if id = chatIdentifier then
                Except.ok ({ c with chatSubscribed := true }, [], [])
              else if id = cardsIdentifier then
                Except.ok ({ c with cardsSubscribed := true }, [], [])
              else Except.ok (c, [], [])
          | _ => Except.ok (c, [], [])
      | some (Json.str "ping") => Except.ok (c, [], [])
      | _ => Except.ok (c, [], [])
  | Except.ok false =>
      match jsHasProp data "message" with
      | Except.error e => Except.error e
      | Except.ok hasMsg =>
          match jsHasProp data "identifier" with
          | Except.error e => Except.error e
          | Except.ok hasId =>
              if hasMsg && hasId then
                match jsGetProp data "message" with
                | some msg =>
                    match jsGetProp data "identifier" with
                    | some (Json.str id) =>
                        if id = cardsIdentifier then
                          Except.ok (c, [],
                            if c.cardHandlerSet then [Callback.onCardEvent msg] else [])
                        else Except.ok (c, [], [Callback.onMessage msg])
                    | _ => Except.ok (c, [], [Callback.onMessage msg])
                | none => Except.ok (c, [], [])
              else Except.ok (c, [], [])

/-- The warning printed when `sendResponse` is gated off. -/
def warnCannotSend : String := "[dashbot] Cannot send — not connected/subscribed"

/-- The warning printed when `sendStatus` is gated off. -/
def warnCannotSendStatus : String := "[dashbot] Cannot send status — not connected/subscribed"

/-- The inner payload `JSON.stringify({ action: "respond", content, metadata })`
of `sendResponse`; an `undefined` metadata argument is dropped by
`JSON.stringify`. -/
def respondData (content : String) (metadata : Option Json) : Json :=
  Json.obj ([("action", Json.str "respond"), ("content", Json.str content)] ++
    (match metadata with | some m => [("metadata", m)] | none => []))

/-- The inner payload of `sendStatus`. -/
def statusData (status : Json) : Json :=
  Json.obj [("action", Json.str "send_status"), ("status_data", status)]

/-- `DashbotConnection.sendResponse` (lines 66-78): returns the state, the
outbound frames, and the console warnings. -/
def sendResponse (c : ConnState) (content : String) (metadata : Option Json) :
    ConnState × List CableCommand × List String :=
  if c.ws = none ∨ c.chatSubscribed = false then (c, [], [warnCannotSend])
  else
    (c, [{ command := "message", identifier := chatIdentifier,
           data := some (respondData content metadata) }], [])

/-- `DashbotConnection.sendStatus` (lines 80-92). -/
def sendStatus (c : ConnState) (status : Json) :
    ConnState × List CableCommand × List String :=
  if c.ws = none ∨ c.chatSubscribed = false then (c, [], [warnCannotSendStatus])
  else
    (c, [{ command := "message", identifier := chatIdentifier,
           data := some (statusData status) }], [])

/-!
## Event semantics of the socket lifecycle

A `World` pairs the connection state with the environment the code interacts
with. Every socket `connect()` creates keeps its `onmessage`/`onclose`
handlers attached to this connection for the rest of the run — nothing ever
detaches them, and replacing `this.ws` does not close or silence the old
socket — so events of every created socket are delivered to the same
connection. A socket is *open* until either the client calls `close()` on it
(it is then *closing*: per the WebSocket specification it delivers no
further message events, but its close event is still to come) or its close
event fires (it is then *closed*; the close event of a socket fires at most
once, whether the close was client- or server-initiated). `setTimeout` in
`scheduleReconnect` arms a fresh timer and stores its handle in
`this.reconnectTimer`, without cancelling any timer the field previously
held; `clearTimeout` in `disconnect` disarms exactly the timer whose handle
the field holds.
-/

/-- The connection state plus its environment. Sockets are named by creation
order: sockets `0 .. nextSock - 1` have been created; a created socket not
in `closingSocks` or `closedSocks` is open. -/
structure World where
  conn : ConnState
  nextSock : Nat
  /-- Sockets on which the client has called `close()` but whose close event
  has not been recorded as fired. -/
  closingSocks : List Nat
  /-- Sockets whose close event has fired. -/
  closedSocks : List Nat
  /-- Handles of the reconnect timers that are armed (scheduled and neither
  fired nor cancelled). -/
  pendingTimers : List Nat
  nextTimer : Nat
deriving DecidableEq, Repr

/-- The world before any event: a freshly constructed connection. -/
def initWorld : World :=
  { conn := initConn, nextSock := 0, closingSocks := [], closedSocks := [],
    pendingTimers := [], nextTimer := 0 }

/-- The body of `connect()` (lines 28-51): create a new socket, store it in
`this.ws`, and install its handlers. The previous socket, if any, is neither
closed nor detached. -/
def connectStep (w : World) : World :=
  { w with
    conn := { w.conn with ws := some w.nextSock },
    nextSock := w.nextSock + 1 }

/-- The close event of socket `s` fires — possible for any created socket
whose close event has not fired yet, including one the client closed or one
that `this.ws` no longer points to. The attached `onclose` handler (lines
41-46) then runs: both subscription flags are cleared and `scheduleReconnect`
(lines 145-149) arms a fresh timer whose handle overwrites
`this.reconnectTimer` (the previous handle, if any, is not cancelled). -/
def closeStep (w : World) (s : Nat) : World :=
  if s < w.nextSock ∧ s ∉ w.closedSocks then
    { w with
      conn := { w.conn with
        chatSubscribed := false, cardsSubscribed := false,
        reconnectTimer := some w.nextTimer },
      closedSocks := s :: w.closedSocks,
      pendingTimers := w.pendingTimers ++ [w.nextTimer],
      nextTimer := w.nextTimer + 1 }
  else w

/-- `disconnect()` (lines 53-64): `clearTimeout` on the stored timer handle,
`null` the handle; call `close()` on the socket if present and `null` the
field; clear both flags. Calling `close()` initiates the closing handshake —
the socket delivers no further message events, but its close event still
fires later (a subsequent `closeSock` event), and the `onclose` handler
stays attached. -/
def disconnectStep (w : World) : World :=
  { w with
    conn := { w.conn with
      ws := none, chatSubscribed := false, cardsSubscribed := false,
      reconnectTimer := none },
    closingSocks :=
      match w.conn.ws with
      | some s => s :: w.closingSocks
      | none => w.closingSocks,
    pendingTimers :=
      match w.conn.reconnectTimer with
      | some t => w.pendingTimers.erase t
      | none => w.pendingTimers }

/-- An armed timer fires: it is disarmed and its callback runs `connect()`.
The callback does not clear `this.reconnectTimer` (the field keeps the stale
handle). A handle that is not armed does nothing. -/
def fireTimerStep (w : World) (t : Nat) : World :=
  if t ∈ w.pendingTimers then connectStep { w with pendingTimers := w.pendingTimers.erase t }
  else w

/-- The `onmessage` handler (lines 37-39) of socket `s` for an already
parsed frame: runs `handleIncoming` whenever `s` is open — also when
`this.ws` has been repointed elsewhere, since the handler stays attached. An
exception propagates out of the handler; `handleIncoming` mutates nothing
before it raises, so the state is unchanged. Outbound frames and callbacks
are not tracked at this level. -/
def frameStep (w : World) (s : Nat) (data : Json) : World :=
  if s < w.nextSock ∧ s ∉ w.closingSocks ∧ s ∉ w.closedSocks then
    match handleIncoming w.conn data with
    | Except.ok (c, _, _) => { w with conn := c }
    | Except.error _ => w
  else w

/-- The events driving the connection: method calls, a socket close event,
a timer firing, and delivery of an inbound frame on a socket. -/
inductive Ev where
  | connect
  | disconnect
  | closeSock (s : Nat)
  | fireTimer (t : Nat)
  | frame (s : Nat) (data : Json)

/-- One event. -/
def step (w : World) : Ev → World
  | Ev.connect => connectStep w
  | Ev.disconnect => disconnectStep w
  | Ev.closeSock s => closeStep w s
  | Ev.fireTimer t => fireTimerStep w t
  | Ev.frame s data => frameStep w s data

/-- A sequence of events. -/
def run (w : World) (evs : List Ev) : World := evs.foldl step w

/-- Is an event an external `connect()` call? (Reconnects driven by a timer
are `fireTimer` events, not `connect` events.) -/
def isConnectEv : Ev → Bool
  | Ev.connect => true
  | _ => false

/-!
## URL builder and outbound chunker

These operate on JavaScript strings, modelled as `List Char` (`length`,
`slice`, `startsWith` and `endsWith` then have their JavaScript meaning).
-/

/-- `config.url.replace(/\/$/, "")`: remove one trailing slash if present. -/
def stripTrailingSlashL (s : List Char) : List Char :=
  if s.getLast? = some '/' then s.dropLast else s

/-- `base.replace(/^https?:\/\//, "")`: remove a leading `https://` or
`http://` if present. -/
def dropUrlScheme (s : List Char) : List Char :=
  if "https://".toList.isPrefixOf s then s.drop 8
  else if "http://".toList.isPrefixOf s then s.drop 7
  else s

/-- Is `c` left unescaped by `encodeURIComponent`? Letters, digits, and the
characters `- _ . ! ~ * ( )` and the apostrophe (code points 45, 95, 46, 33,
126, 42, 40, 41, 39). -/
def uriUnreserved (c : Char) : Bool :=
  c.isAlpha || c.isDigit || c.toNat ∈ [45, 95, 46, 33, 126, 42, 40, 41, 39]

/-- Upper-case hexadecimal digit. -/
def hexDigitChar (n : Nat) : Char :=
  if n < 10 then Char.ofNat (48 + n) else Char.ofNat (55 + n)

/-- `%XX` escape of one byte. -/
def percentByte (b : Nat) : List Char :=
  ['%', hexDigitChar (b / 16), hexDigitChar (b % 16)]

/-- The UTF-8 bytes of a code point. -/
def utf8Bytes (n : Nat) : List Nat :=
  if n < 128 then [n]
  else if n < 2048 then [192 + n / 64, 128 + n % 64]
  else if n < 65536 then [224 + n / 4096, 128 + n / 64 % 64, 128 + n % 64]
  else [240 + n / 262144, 128 + n / 4096 % 64, 128 + n / 64 % 64, 128 + n % 64]

/-- One character of `encodeURIComponent` output. -/
def encodeChar (c : Char) : List Char :=
  if uriUnreserved c then [c] else ((utf8Bytes c.toNat).map percentByte).flatten

/-- The ECMAScript built-in `encodeURIComponent`, on strings whose surrogate
pairs are combined into code points (the built-in raises on a lone
surrogate, which a `Char` cannot represent). -/
def encodeURIComponent (s : List Char) : List Char :=
  (s.map encodeChar).flatten

/-- `DashbotConnection.buildWsUrl` (lines 151-156), taking the two
configuration fields it reads. -/
def buildWsUrl (url token : List Char) : List Char :=
  let base := stripTrailingSlashL url
  let protocol := if "https".toList.isPrefixOf base then "wss".toList else "ws".toList
  let host := dropUrlScheme base
  protocol ++ "://".toList ++ host ++ "/cable?token=".toList ++ encodeURIComponent token

/-- The recursion of the chunking loop of `dashbotPlugin.outbound.chunker`
(`src/channel.ts` lines 137-141): `for (let i = 0; i < text.length; i += limit)
chunks.push(text.slice(i, i + limit))`. When `limit = 0` the source loop
never terminates; that case is unreachable from `chunker` under the positive
limits the claims quantify over, and is mapped to `[]` here. -/
def chunkerGo (limit : Nat) (cs : List Char) : List (List Char) :=
  if h : cs = [] then []
  else if hl : limit = 0 then []
  else cs.take limit :: chunkerGo limit (cs.drop limit)
termination_by cs.length
decreasing_by
  simp only [List.length_drop]
  exact Nat.sub_lt (List.length_pos.mpr h) (Nat.pos_of_ne_zero hl)

/-- `dashbotPlugin.outbound.chunker` (`src/channel.ts` lines 135-142). -/
def chunker (text : List Char) (limit : Nat) : List (List Char) :=
  if text.length ≤ limit then [text] else chunkerGo limit text


/-!
## Outbound delivery (`createOutbound`, `postResponse`, `postCard`)

The HTTP layer is passed in explicitly: an outbound call is split into the
request it issues and a function of the `fetch` outcome. A `fetch` outcome is
either a response — carrying its status, the value `res.json()` resolves to
(`none` when the body is not valid JSON, in which case `res.json()` rejects)
and the text `res.text()` resolves to — or a network exception, carried as
the string `String(err)` renders it to.
-/

/-- The methods of the `StatusReporter` class (`src/status-reporter.ts`
lines 359-410). -/
def statusReporterMethods : List String := ["start", "stop", "isActive", "report"]

/-- Invoking `obj.m(...)` on an object whose methods are `methods`: a
`TypeError` when `m` is not among them. -/
def jsInvokeMethod (methods : List String) (m : String) : Except JsError Unit :=
  if m ∈ methods then Except.ok ()
  else Except.error (JsError.typeError (m ++ " is not a function"))

/-- The synchronous part of `gateway.startAccount` up to and including the
`statusReporter.startHttpFallback(...)` call: construct the reporter and the
connection, run `connection.connect()`, then invoke `startHttpFallback` on
the reporter. -/
def startAccountGateway : Except JsError World := do
  let w := step initWorld Ev.connect
  let _ ← jsInvokeMethod statusReporterMethods "startHttpFallback"
  Except.ok w


/-!
## Frame constructors used in the statements
-/

/-- The welcome frame `{"type":"welcome"}`. -/
def welcomeFrame : Json := Json.obj [("type", Json.str "welcome")]

/-- A subscription confirmation frame
`{"type":"confirm_subscription","identifier":id}`. -/
def confirmFrame (id : String) : Json :=
  Json.obj [("type", Json.str "confirm_subscription"), ("identifier", Json.str id)]

/-- A broadcast frame `{"identifier":ident,"message":msg}` (no `type`
field). -/
def broadcastFrame (ident : String) (msg : Json) : Json :=
  Json.obj [("identifier", Json.str ident), ("message", msg)]

/-!
## Invariants of the event semantics

The invariant below is the inductive strengthening used for claim C7. It is
preserved along every run in which `connect()` is called externally at most
once — the plugin itself calls it exactly once per account — and all
reconnection is driven by the timers. With a second external `connect()`
call two sockets can be open at once, and their two close events arm two
reconnect timers; a stale open socket can also deliver a confirmation after
`disconnect()`, setting `chatSubscribed` while `this.ws` is `null`.
-/

/-- Inductive invariant of single-external-connect runs: at most one created
socket is not yet closed; every open socket is the one `this.ws` holds; a
pending reconnect timer exists only when every created socket is closed; at
most one reconnect timer is armed and `this.reconnectTimer` tracks it; and
the chat flag is set only while a socket handle is present. -/
def SingleConnectInv (w : World) : Prop :=
  (∀ s t, s < w.nextSock → s ∉ w.closedSocks → t < w.nextSock → t ∉ w.closedSocks →
    s = t) ∧
  (∀ s, s < w.nextSock → s ∉ w.closingSocks → s ∉ w.closedSocks →
    w.conn.ws = some s) ∧
  (w.pendingTimers ≠ [] → ∀ s, s < w.nextSock → s ∈ w.closedSocks) ∧
  w.pendingTimers.length ≤ 1 ∧
  (∀ t ∈ w.pendingTimers, w.conn.reconnectTimer = some t) ∧
  (w.conn.chatSubscribed = true → w.conn.ws ≠ none)

/-!
## Shared helper lemmas
-/

/-- On an object or array the `in` operator returns without raising. -/
theorem jsHasProp_of_objectLike (data : Json) (k : String)
    (h : objectLike data = true) : ∃ b, jsHasProp data k = Except.ok b := by
  cases data <;> simp [objectLike] at h <;> simp [jsHasProp]

/-!
## Claim theorems
-/

/-- Claim C1 (code bug): `gateway.startAccount` invokes
`statusReporter.startHttpFallback` and `statusReporter.stopHttpFallback`,
but the `StatusReporter` class provides neither method, so the start path
throws a `TypeError` instead of starting the HTTP fallback. -/
theorem startAccount_startHttpFallback_missing :
    statusReporterMethods.contains "startHttpFallback" = false ∧
    statusReporterMethods.contains "stopHttpFallback" = false ∧
    startAccountGateway =
      Except.error (JsError.typeError "startHttpFallback is not a function") :=
  ⟨rfl, rfl, rfl⟩

/-- Claim C2 (corrected): routing of a Broadcast frame. A cards broadcast
invokes only the card handler (when registered) and a chat broadcast only
the chat handler, but a broadcast whose identifier matches neither channel
is not dropped: the `else` branch of `handleIncoming` delivers every
non-cards broadcast, unknown identifiers included, to the chat-message
callback. -/
theorem handleIncoming_broadcastRouting (c : ConnState) (ident : String) (msg : Json) :
    (ident = cardsIdentifier →
      handleIncoming c (broadcastFrame ident msg) =
        Except.ok (c, [], if c.cardHandlerSet then [Callback.onCardEvent msg] else [])) ∧
    (ident ≠ cardsIdentifier →
      handleIncoming c (broadcastFrame ident msg) =
        Except.ok (c, [], [Callback.onMessage msg])) := by
  constructor <;> intro h <;>
    simp [handleIncoming, broadcastFrame, jsHasProp, jsGetProp, List.lookup, h]

/-- Claim C2, counterexample: a Broadcast whose identifier matches neither
known channel is not dropped — it is delivered to the chat-message
callback. -/
theorem handleIncoming_unknownIdentifier_notDropped :
    handleIncoming initConn (broadcastFrame "other" (Json.obj [])) =
      Except.ok (initConn, [], [Callback.onMessage (Json.obj [])]) ∧
    [Callback.onMessage (Json.obj [])] ≠ ([] : List Callback) :=
  ⟨rfl, by simp⟩

/-- Claim C2, witness: a chat broadcast is delivered to the chat-message
callback (and not to the card handler). -/
theorem handleIncoming_broadcastRouting_witness :
    chatIdentifier ≠ cardsIdentifier ∧
    handleIncoming initConn (broadcastFrame chatIdentifier (Json.obj [])) =
      Except.ok (initConn, [], [Callback.onMessage (Json.obj [])]) :=
  ⟨by decide,
    (handleIncoming_broadcastRouting initConn chatIdentifier (Json.obj [])).2 (by decide)⟩

/-- Claim C3 (corrected, positive part): an inbound frame that parses to a
JSON object or array and has an unrecognized shape — a `type` value other
than `welcome`/`confirm_subscription`/`ping`, or neither a `type` field nor
both `message` and `identifier` fields — leaves the state unchanged, sends
nothing, invokes no callback, and does not raise. -/
theorem handleIncoming_unrecognizedObjectFrame_ignored (c : ConnState) (data : Json)
    (hobj : objectLike data = true)
    (hshape :
      (jsHasProp data "type" = Except.ok true ∧
        ∀ s : String, jsGetProp data "type" = some (Json.str s) →
          s ≠ "welcome" ∧ s ≠ "confirm_subscription" ∧ s ≠ "ping") ∨
      (jsHasProp data "type" = Except.ok false ∧
        ¬(jsHasProp data "message" = Except.ok true ∧
          jsHasProp data "identifier" = Except.ok true))) :
    handleIncoming c data = Except.ok (c, [], []) := by
  rcases hshape with ⟨ht, hv⟩ | ⟨ht, hmi⟩
  · unfold handleIncoming
    simp only [ht]
    split
    · rename_i heq; exact absurd rfl (hv "welcome" heq).1
    · rename_i heq; exact absurd rfl (hv "confirm_subscription" heq).2.1
    · rfl
    · rfl
  · obtain ⟨bm, hm⟩ := jsHasProp_of_objectLike data "message" hobj
    obtain ⟨bi, hi⟩ := jsHasProp_of_objectLike data "identifier" hobj
    have hband : (bm && bi) = false := by
      cases bm <;> cases bi <;> simp_all
    unfold handleIncoming
    simp only [ht, hm, hi, hband]
    simp

/-- Claim C3, counterexample: the frame `null` — valid JSON, but not a
recognized frame shape — makes `handleIncoming` raise a `TypeError`
(`"type" in data` on a primitive), so a malformed frame does not leave the
handler silently. -/
theorem handleIncoming_nullFrame_raises :
    handleIncoming initConn Json.null =
      Except.error (JsError.typeError "Cannot use in operator to search for type") := rfl

/-- Claim C3, witness: an object frame with the unrecognized type
`status_update` is ignored without raising. -/
theorem handleIncoming_unrecognizedObjectFrame_ignored_witness :
    objectLike (Json.obj [("type", Json.str "status_update")]) = true ∧
    handleIncoming initConn (Json.obj [("type", Json.str "status_update")]) =
      Except.ok (initConn, [], []) := by
  refine ⟨rfl, handleIncoming_unrecognizedObjectFrame_ignored initConn _ rfl (Or.inl ⟨rfl, ?_⟩)⟩
  intro s h
  have h2 : (some (Json.str "status_update") : Option Json) = some (Json.str s) := h
  injection h2 with h3
  injection h3 with h4
  subst h4
  exact ⟨by decide, by decide, by decide⟩

/-- Claim C5 (confirmed): outbound gating. With no socket or without a
confirmed chat subscription, `sendResponse` and `sendStatus` emit no frame
and only log a warning, leaving the state unchanged; with a socket and a
confirmed chat subscription each emits exactly one `message` command on the
chat identifier whose decoded payload carries the given `content`
(respectively `status_data`). -/
theorem sendResponse_sendStatus_gating (c : ConnState) (content : String)
    (metadata : Option Json) (status : Json) :
    ((c.ws = none ∨ c.chatSubscribed = false) →
      sendResponse c content metadata = (c, [], [warnCannotSend]) ∧
      sendStatus c status = (c, [], [warnCannotSendStatus])) ∧
    (c.ws ≠ none → c.chatSubscribed = true →
      (∃ cmd, sendResponse c content metadata = (c, [cmd], []) ∧
        cmd.command = "message" ∧ cmd.identifier = chatIdentifier ∧
        ∃ d, cmd.data = some d ∧ jsGetProp d "content" = some (Json.str content)) ∧
      (∃ cmd, sendStatus c status = (c, [cmd], []) ∧
        cmd.command = "message" ∧ cmd.identifier = chatIdentifier ∧
        ∃ d, cmd.data = some d ∧ jsGetProp d "status_data" = some status)) := by
  constructor
  · intro h
    constructor <;> simp [sendResponse, sendStatus, h]
  · intro h1 h2
    constructor
    · refine ⟨CableCommand.mk "message" chatIdentifier (some (respondData content metadata)),
        ?_, rfl, rfl, respondData content metadata, rfl, ?_⟩
      · simp [sendResponse, h1, h2]
      · cases metadata <;> simp [respondData, jsGetProp, List.lookup]
    · refine ⟨CableCommand.mk "message" chatIdentifier (some (statusData status)),
        ?_, rfl, rfl, statusData status, rfl, ?_⟩
      · simp [sendStatus, h1, h2]
      · simp [statusData, jsGetProp, List.lookup]

/-- Claim C5, witness: in a connected, chat-subscribed state `sendResponse`
emits one frame carrying the content, and in the initial state it is gated
off with a warning. -/
theorem sendResponse_sendStatus_gating_witness :
    (initConn.ws = none ∨ initConn.chatSubscribed = false) ∧
    (sendResponse initConn "hi" none = (initConn, [], [warnCannotSend]) ∧
      sendStatus initConn Json.null = (initConn, [], [warnCannotSendStatus])) :=
  ⟨Or.inl rfl,
    (sendResponse_sendStatus_gating initConn "hi" none Json.null).1 (Or.inl rfl)⟩

/-- Claim C6 (confirmed): with a socket present (as after `connect`), a
Welcome frame makes the connection send exactly two frames — the chat
subscribe first, the cards subscribe second — with no state change and no
callback; processing a Confirmation frame sends nothing, so both subscribes
precede anything a Confirmation does. -/
theorem welcome_subscribesBothChannels (c : ConnState) (n : Nat) (h : c.ws = some n) :
    handleIncoming c welcomeFrame =
      Except.ok (c, [subscribeChatCmd, subscribeCardsCmd], []) ∧
    ∀ id, ∃ c', handleIncoming c (confirmFrame id) = Except.ok (c', [], []) := by
  constructor
  · simp [handleIncoming, welcomeFrame, jsHasProp, jsGetProp, List.lookup, welcomeSends, h]
  · intro id
    by_cases h1 : id = chatIdentifier
    · exact ⟨{ c with chatSubscribed := true },
        by simp [handleIncoming, confirmFrame, jsHasProp, jsGetProp, List.lookup, h1]⟩
    · by_cases h2 : id = cardsIdentifier
      · exact ⟨{ c with cardsSubscribed := true },
          by simp [handleIncoming, confirmFrame, jsHasProp, jsGetProp, List.lookup, h1, h2,
            chatIdentifier, cardsIdentifier]⟩
      · exact ⟨c,
          by simp [handleIncoming, confirmFrame, jsHasProp, jsGetProp, List.lookup, h1, h2]⟩

/-- Claim C6, witness: in a freshly connected state the Welcome frame
produces exactly the two subscribe commands in order. -/
theorem welcome_subscribesBothChannels_witness :
    (connectStep initWorld).conn.ws = some 0 ∧
    handleIncoming (connectStep initWorld).conn welcomeFrame =
      Except.ok ((connectStep initWorld).conn, [subscribeChatCmd, subscribeCardsCmd], []) :=
  ⟨rfl, (welcome_subscribesBothChannels (connectStep initWorld).conn 0 rfl).1⟩

/-- `handleIncoming` never touches `this.ws` or `this.reconnectTimer`. -/
theorem handleIncoming_preserves_ws (c : ConnState) (d : Json) (c' : ConnState)
    (cmds : List CableCommand) (cbs : List Callback)
    (h : handleIncoming c d = Except.ok (c', cmds, cbs)) :
    c'.ws = c.ws ∧ c'.reconnectTimer = c.reconnectTimer := by
  unfold handleIncoming at h
  repeat' split at h
  all_goals simp at h
  all_goals (obtain ⟨h1, -, -⟩ := h; subst h1; simp)


/-- `SingleConnectInv` holds initially. -/
theorem singleConnectInv_init : SingleConnectInv initWorld := by
  refine ⟨?_, ?_, ?_, ?_, ?_, ?_⟩
  · intro a b ha _ _ _
    simp [initWorld] at ha
  · intro a ha _ _
    simp [initWorld] at ha
  · intro hp
    simp [initWorld] at hp
  · simp [initWorld]
  · intro t ht
    simp [initWorld] at ht
  · intro hc
    simp [initWorld, initConn] at hc

/-- `SingleConnectInv` holds after the one external `connect()` call made
from the pristine world. -/
theorem singleConnectInv_connect : SingleConnectInv (connectStep initWorld) := by
  refine ⟨?_, ?_, ?_, ?_, ?_, ?_⟩
  · intro a b ha _ hb _
    have ha2 : a < 1 := ha
    have hb2 : b < 1 := hb
    omega
  · intro a ha _ _
    have ha2 : a < 1 := ha
    have ha0 : a = 0 := by omega
    subst ha0
    rfl
  · intro hp
    exact absurd rfl hp
  · show List.length [] ≤ 1
    simp
  · intro t ht
    simp [connectStep, initWorld] at ht
  · intro hc
    exact absurd hc (by decide)

/-- Every event other than an external `connect()` fixes the pristine
world: with no socket created and no timer armed, close events, frames,
timer fires and `disconnect()` are no-ops. -/
theorem step_initWorld_of_not_connect (e : Ev) (hne : isConnectEv e = false) :
    step initWorld e = initWorld := by
  cases e with
  | connect => simp [isConnectEv] at hne
  | disconnect => rfl
  | closeSock s => simp [step, closeStep, initWorld]
  | fireTimer t => simp [step, fireTimerStep, initWorld]
  | frame s data => simp [step, frameStep, initWorld]

/-- Under `SingleConnectInv`, `disconnect()` leaves no timer armed: the
armed timers are exactly the tracked one, which `clearTimeout` removes. -/
theorem disconnectStep_pendingTimers_nil (w : World)
    (htrack : ∀ t ∈ w.pendingTimers, w.conn.reconnectTimer = some t)
    (hlen : w.pendingTimers.length ≤ 1) :
    (disconnectStep w).pendingTimers = [] := by
  cases hrt : w.conn.reconnectTimer with
  | none =>
      have hp : w.pendingTimers = [] := by
        cases hp : w.pendingTimers with
        | nil => rfl
        | cons a l =>
            have := htrack a (by simp [hp])
            rw [hrt] at this
            cases this
      simp [disconnectStep, hrt, hp]
  | some t =>
      have hp : w.pendingTimers.erase t = [] := by
        cases hp : w.pendingTimers with
        | nil => rfl
        | cons a l =>
            have hl : l = [] := by
              cases l with
              | nil => rfl
              | cons b m => rw [hp] at hlen; simp at hlen
            have ha := htrack a (by simp [hp])
            rw [hrt] at ha
            cases ha
            simp [hl, List.erase]
      simp [disconnectStep, hrt, hp]

/-- `SingleConnectInv` is preserved by every event other than an external
`connect()` call. -/
theorem singleConnectInv_step (w : World) (e : Ev) (h : SingleConnectInv w)
    (hne : isConnectEv e = false) : SingleConnectInv (step w e) := by
  obtain ⟨huniq, hopen, hquiet, hlen, htrack, hchat⟩ := h
  cases e with
  | connect => simp [isConnectEv] at hne
  | disconnect =>
      have hpend : (disconnectStep w).pendingTimers = [] :=
        disconnectStep_pendingTimers_nil w htrack hlen
      refine ⟨?_, ?_, ?_, ?_, ?_, ?_⟩
      · intro a b ha hca hb hcb
        exact huniq a b ha hca hb hcb
      · intro a ha hclg hcld
        exfalso
        cases hws : w.conn.ws with
        | some s0 =>
            have heq : (step w Ev.disconnect).closingSocks = s0 :: w.closingSocks := by
              simp [step, disconnectStep, hws]
            rw [heq] at hclg
            simp only [List.mem_cons, not_or] at hclg
            have hwa := hopen a ha hclg.2 hcld
            rw [hws] at hwa
            injection hwa with hwa2
            exact hclg.1 hwa2.symm
        | none =>
            have heq : (step w Ev.disconnect).closingSocks = w.closingSocks := by
              simp [step, disconnectStep, hws]
            rw [heq] at hclg
            have hwa := hopen a ha hclg hcld
            rw [hws] at hwa
            cases hwa
      · intro hp
        exact absurd hpend hp
      · rw [show (step w Ev.disconnect).pendingTimers = [] from hpend]
        simp
      · intro u hu
        rw [show (step w Ev.disconnect).pendingTimers = [] from hpend] at hu
        cases hu
      · intro hc
        simp [step, disconnectStep] at hc
  | closeSock s =>
      by_cases hcnd : s < w.nextSock ∧ s ∉ w.closedSocks
      · have hpend : w.pendingTimers = [] := by
          by_contra hne2
          exact hcnd.2 (hquiet hne2 s hcnd.1)
        have hw2 : step w (Ev.closeSock s) =
            { w with
              conn := { w.conn with
                        chatSubscribed := false,
                        cardsSubscribed := false,
                        reconnectTimer := some w.nextTimer },
              closedSocks := s :: w.closedSocks,
              pendingTimers := w.pendingTimers ++ [w.nextTimer],
              nextTimer := w.nextTimer + 1 } := by
          simp [step, closeStep, hcnd]
        rw [hw2]
        refine ⟨?_, ?_, ?_, ?_, ?_, ?_⟩
        · intro a b ha hca hb hcb
          have hca2 : a ∉ s :: w.closedSocks := hca
          have hcb2 : b ∉ s :: w.closedSocks := hcb
          simp only [List.mem_cons, not_or] at hca2 hcb2
          exact huniq a b ha hca2.2 hb hcb2.2
        · intro a ha hclg hcld
          have hcld2 : a ∉ s :: w.closedSocks := hcld
          simp only [List.mem_cons, not_or] at hcld2
          exact hopen a ha hclg hcld2.2
        · intro _ a ha
          show a ∈ s :: w.closedSocks
          by_cases hac : a = s
          · simp [hac]
          · by_cases hacl : a ∈ w.closedSocks
            · simp [hacl]
            · exact absurd (huniq a s ha hacl hcnd.1 hcnd.2) hac
        · show (w.pendingTimers ++ [w.nextTimer]).length ≤ 1
          simp [hpend]
        · intro u hu
          have hu2 : u ∈ w.pendingTimers ++ [w.nextTimer] := hu
          rw [hpend] at hu2
          simp at hu2
          show some w.nextTimer = some u
          rw [hu2]
        · intro hc
          have hc2 : false = true := hc
          exact absurd hc2 (by decide)
      · have hw2 : step w (Ev.closeSock s) = w := by
          simp only [step, closeStep, if_neg hcnd]
        rw [hw2]
        exact ⟨huniq, hopen, hquiet, hlen, htrack, hchat⟩
  | fireTimer t =>
      by_cases ht : t ∈ w.pendingTimers
      · have hpt : w.pendingTimers = [t] := by
          cases hp : w.pendingTimers with
          | nil => rw [hp] at ht; cases ht
          | cons a l =>
              have hl : l = [] := by
                cases l with
                | nil => rfl
                | cons b m => rw [hp] at hlen; simp at hlen
              rw [hp, hl] at ht
              simp at ht
              rw [hl, ht]
        have hall : ∀ a, a < w.nextSock → a ∈ w.closedSocks :=
          hquiet (by simp [hpt])
        have hw2 : step w (Ev.fireTimer t) =
            { w with
              conn := { w.conn with ws := some w.nextSock },
              nextSock := w.nextSock + 1,
              pendingTimers := ([] : List Nat) } := by
          simp [step, fireTimerStep, ht, connectStep, hpt, List.erase_cons_head]
        rw [hw2]
        refine ⟨?_, ?_, ?_, ?_, ?_, ?_⟩
        · intro a b ha hca hb hcb
          have ha2 : a < w.nextSock + 1 := ha
          have hb2 : b < w.nextSock + 1 := hb
          have ha3 : a = w.nextSock := by
            by_contra hne2
            have : a < w.nextSock := by omega
            exact hca (hall a this)
          have hb3 : b = w.nextSock := by
            by_contra hne2
            have : b < w.nextSock := by omega
            exact hcb (hall b this)
          rw [ha3, hb3]
        · intro a ha hclg hcld
          have ha2 : a < w.nextSock + 1 := ha
          have ha3 : a = w.nextSock := by
            by_contra hne2
            have : a < w.nextSock := by omega
            exact hcld (hall a this)
          show some w.nextSock = some a
          rw [ha3]
        · intro hp
          exact absurd rfl hp
        · show List.length [] ≤ 1
          simp
        · intro u hu
          have hu2 : u ∈ ([] : List Nat) := hu
          cases hu2
        · intro _
          show some w.nextSock ≠ none
          simp
      · have hw2 : step w (Ev.fireTimer t) = w := by
          simp [step, fireTimerStep, ht]
        rw [hw2]
        exact ⟨huniq, hopen, hquiet, hlen, htrack, hchat⟩
  | frame s data =>
      by_cases henb : s < w.nextSock ∧ s ∉ w.closingSocks ∧ s ∉ w.closedSocks
      · cases hh : handleIncoming w.conn data with
        | error e =>
            have hw2 : step w (Ev.frame s data) = w := by
              simp [step, frameStep, henb, hh]
            rw [hw2]
            exact ⟨huniq, hopen, hquiet, hlen, htrack, hchat⟩
        | ok res =>
            obtain ⟨c2, cmds, cbs⟩ := res
            obtain ⟨hwsp, hrtp⟩ := handleIncoming_preserves_ws w.conn data c2 cmds cbs hh
            have hws : w.conn.ws = some s := hopen s henb.1 henb.2.1 henb.2.2
            have hw2 : step w (Ev.frame s data) = { w with conn := c2 } := by
              simp [step, frameStep, henb, hh]
            rw [hw2]
            refine ⟨huniq, ?_, hquiet, hlen, ?_, ?_⟩
            · intro a ha hclg hcld
              show c2.ws = some a
              rw [hwsp]
              exact hopen a ha hclg hcld
            · intro u hu
              show c2.reconnectTimer = some u
              rw [hrtp]
              exact htrack u hu
            · intro _
              show c2.ws ≠ none
              rw [hwsp, hws]
              simp
      · have hw2 : step w (Ev.frame s data) = w := by
          simp only [step, frameStep, if_neg henb]
        rw [hw2]
        exact ⟨huniq, hopen, hquiet, hlen, htrack, hchat⟩

/-- `SingleConnectInv` holds along every run that calls `connect()` at most
once. -/
theorem singleConnectInv_run (evs : List Ev) : ∀ w, SingleConnectInv w →
    (w = initWorld ∨ evs.countP isConnectEv = 0) →
    evs.countP isConnectEv ≤ 1 → SingleConnectInv (run w evs) := by
  induction evs with
  | nil => exact fun w h _ _ => h
  | cons e rest ih =>
      intro w h hd hle
      cases hconn : isConnectEv e with
      | false =>
          refine ih (step w e) (singleConnectInv_step w e h hconn) ?_ ?_
          · cases hd with
            | inl hw => subst hw; exact Or.inl (step_initWorld_of_not_connect e hconn)
            | inr hc =>
                right
                rw [List.countP_cons, hconn] at hc
                simpa using hc
          · rw [List.countP_cons, hconn] at hle
            simpa using hle
      | true =>
          have hw : w = initWorld := by
            cases hd with
            | inl hw => exact hw
            | inr hc =>
                rw [List.countP_cons, hconn] at hc
                simp at hc
          subst hw
          have he : e = Ev.connect := by
            cases e <;> simp_all [isConnectEv]
          subst he
          rw [List.countP_cons, hconn] at hle
          simp at hle
          have hc0 : List.countP isConnectEv rest = 0 := by
            rw [List.countP_eq_zero]
            intro a ha
            simp [hle a ha]
          exact ih (step initWorld Ev.connect) singleConnectInv_connect
            (Or.inr hc0) (by rw [hc0]; omega)

/-- Claim C7 (corrected): invariants of the connection state machine, for
runs that call `connect()` externally at most once (the plugin calls it
exactly once per account; reconnects are timer events). In every reachable
state of such a run the chat flag is set only while a socket handle is
present and at most one reconnect timer is armed; and unconditionally,
every socket-close transition clears both subscription flags in the very
transition that arms the reconnect timer. With repeated external
`connect()` calls the first and third parts fail: two sockets can be open
at once — their handlers stay attached — so their two close events arm two
timers, and a stale open socket can deliver a confirmation after
`disconnect()`. -/
theorem connection_invariants_amended (evs : List Ev)
    (hconn : evs.countP isConnectEv ≤ 1) :
    ((run initWorld evs).conn.chatSubscribed = true →
      (run initWorld evs).conn.ws ≠ none) ∧
    (∀ (w : World) (s : Nat), s < w.nextSock → s ∉ w.closedSocks →
      (closeStep w s).conn.chatSubscribed = false ∧
      (closeStep w s).conn.cardsSubscribed = false ∧
      (closeStep w s).conn.reconnectTimer = some w.nextTimer ∧
      (closeStep w s).pendingTimers = w.pendingTimers ++ [w.nextTimer]) ∧
    (run initWorld evs).pendingTimers.length ≤ 1 := by
  have hinv := singleConnectInv_run evs initWorld singleConnectInv_init (Or.inl rfl) hconn
  refine ⟨hinv.2.2.2.2.2, ?_, hinv.2.2.2.1⟩
  intro w s hs hcs
  refine ⟨?_, ?_, ?_, ?_⟩ <;> simp [closeStep, hs, hcs]

/-- Claim C7, counterexample: with a second external `connect()` call the
claimed invariants fail. Sockets 0 and 1 are open at once; both closing
arms two reconnect timers; and after `disconnect()` (which closes only
socket 1) the still-open socket 0 delivers a chat confirmation, setting
`chatSubscribed` while `this.ws` is `null`. -/
theorem twoReconnectTimersArmed :
    ¬((run initWorld [Ev.connect, Ev.connect, Ev.closeSock 0,
        Ev.closeSock 1]).pendingTimers.length ≤ 1) ∧
    (run initWorld [Ev.connect, Ev.connect, Ev.disconnect,
        Ev.frame 0 (confirmFrame chatIdentifier)]).conn.chatSubscribed = true ∧
    (run initWorld [Ev.connect, Ev.connect, Ev.disconnect,
        Ev.frame 0 (confirmFrame chatIdentifier)]).conn.ws = none := by
  refine ⟨by decide, rfl, rfl⟩

/-- Claim C7, witness: along a single connect, the loss of the socket, and
the reconnect timer firing, the timer bound holds. -/
theorem connection_invariants_amended_witness :
    List.countP isConnectEv [Ev.connect, Ev.closeSock 0, Ev.fireTimer 0] ≤ 1 ∧
    (run initWorld [Ev.connect, Ev.closeSock 0, Ev.fireTimer 0]).pendingTimers.length ≤ 1 := by
  refine ⟨by decide, ?_⟩
  exact (connection_invariants_amended [Ev.connect, Ev.closeSock 0, Ev.fireTimer 0]
    (by decide)).2.2

/-- With no timer armed, timer-fire events are no-ops. -/
theorem run_fireTimers_of_none_pending (w : World) (h : w.pendingTimers = [])
    (ts : List Nat) : run w (ts.map Ev.fireTimer) = w := by
  induction ts with
  | nil => rfl
  | cons t ts ih =>
      have hstep : step w (Ev.fireTimer t) = w := by
        simp [step, fireTimerStep, h]
      show run (step w (Ev.fireTimer t)) (ts.map Ev.fireTimer) = w
      rw [hstep, ih]

/-- Claim C8 (corrected): `disconnect()` clears the socket handle and both
subscription flags, nulls the timer field, initiates the close of the
socket it held, and cancels the timer the field tracked — when at most one
timer was armed and tracked, no timer remains armed, and timer-fire events
alone then neither restore a socket handle nor create a socket; `connect()`
may still be called again. But the teardown is not quiescent: the close
event of the socket `disconnect()` closed still fires the attached
`onclose` handler, which arms a reconnect timer, and when that timer fires
`connect()` runs and creates a new socket with no further external call —
so advancing time after `disconnect()` does produce a new socket once the
close event has been delivered. -/
theorem disconnect_cleanup_amended (w : World) :
    (disconnectStep w).conn.ws = none ∧
    (disconnectStep w).conn.chatSubscribed = false ∧
    (disconnectStep w).conn.cardsSubscribed = false ∧
    (disconnectStep w).conn.reconnectTimer = none ∧
    (∀ s, w.conn.ws = some s → s ∈ (disconnectStep w).closingSocks) ∧
    ((∀ t ∈ w.pendingTimers, w.conn.reconnectTimer = some t) →
      w.pendingTimers.length ≤ 1 →
      (disconnectStep w).pendingTimers = [] ∧
      (∀ ts : List Nat,
        (run (disconnectStep w) (ts.map Ev.fireTimer)).conn.ws = none ∧
        (run (disconnectStep w) (ts.map Ev.fireTimer)).nextSock = w.nextSock) ∧
      (∀ s, w.conn.ws = some s → s < w.nextSock → s ∉ w.closedSocks →
        (step (step (disconnectStep w) (Ev.closeSock s))
            (Ev.fireTimer w.nextTimer)).conn.ws = some w.nextSock)) ∧
    ((step (disconnectStep w) Ev.connect).conn.ws).isSome = true := by
  refine ⟨rfl, rfl, rfl, rfl, ?_, ?_, rfl⟩
  · intro s hws
    simp [disconnectStep, hws]
  · intro htrack hlen
    have hp : (disconnectStep w).pendingTimers = [] :=
      disconnectStep_pendingTimers_nil w htrack hlen
    refine ⟨hp, fun ts => ?_, fun s hws hsn hsc => ?_⟩
    · rw [run_fireTimers_of_none_pending (disconnectStep w) hp ts]
      exact ⟨rfl, rfl⟩
    · have hcond : s < (disconnectStep w).nextSock ∧
          s ∉ (disconnectStep w).closedSocks := ⟨hsn, hsc⟩
      have h2 : step (disconnectStep w) (Ev.closeSock s) =
          { disconnectStep w with
            conn := { (disconnectStep w).conn with
                      chatSubscribed := false,
                      cardsSubscribed := false,
                      reconnectTimer := some w.nextTimer },
            closedSocks := s :: (disconnectStep w).closedSocks,
            pendingTimers := [w.nextTimer],
            nextTimer := w.nextTimer + 1 } := by
        simp only [step, closeStep, if_pos hcond, hp]
        rfl
      rw [h2]
      have h3 : w.nextTimer ∈ [w.nextTimer] := by simp
      simp [step, fireTimerStep, h3, connectStep, List.erase_cons_head, disconnectStep]

/-- Claim C8, counterexample: in a run with a single `connect()` and no
call after `disconnect()`, the close event of the socket `disconnect()`
closed fires the `onclose` handler, which arms a reconnect timer; when it
fires, a new socket is created — advancing time after `disconnect()` does
produce a new socket. -/
theorem disconnect_closeEvent_reconnects :
    (run initWorld [Ev.connect, Ev.disconnect]).conn.ws = none ∧
    (run initWorld [Ev.connect, Ev.disconnect, Ev.closeSock 0,
        Ev.fireTimer 0]).conn.ws = some 1 :=
  ⟨rfl, rfl⟩

/-- Claim C8, witness: after a single connect — one tracked timer state —
`disconnect()` leaves no timer armed. -/
theorem disconnect_cleanup_amended_witness :
    (∀ t ∈ (run initWorld [Ev.connect]).pendingTimers,
      (run initWorld [Ev.connect]).conn.reconnectTimer = some t) ∧
    (run initWorld [Ev.connect]).pendingTimers.length ≤ 1 ∧
    (disconnectStep (run initWorld [Ev.connect])).pendingTimers = [] := by
  refine ⟨by decide, by decide, ?_⟩
  exact ((disconnect_cleanup_amended (run initWorld [Ev.connect])).2.2.2.2.2.1
    (by decide) (by decide)).1

/-- Claim C9 (confirmed): for a configured base URL `https://host` or
`http://host` (host nonempty, no trailing slash), with or without one
trailing slash, the derived socket URL uses `wss` for `https` and `ws` for
`http`, strips the trailing slash before appending the fixed `/cable` path,
and carries the token URL-encoded as the `token` query parameter. -/
theorem buildWsUrl_schemeAndPath (host token : List Char) (h0 : host ≠ [])
    (h1 : host.getLast? ≠ some '/') :
    buildWsUrl ("https://".toList ++ host) token =
      "wss://".toList ++ host ++ "/cable?token=".toList ++ encodeURIComponent token ∧
    buildWsUrl ("https://".toList ++ host ++ "/".toList) token =
      "wss://".toList ++ host ++ "/cable?token=".toList ++ encodeURIComponent token ∧
    buildWsUrl ("http://".toList ++ host) token =
      "ws://".toList ++ host ++ "/cable?token=".toList ++ encodeURIComponent token ∧
    buildWsUrl ("http://".toList ++ host ++ "/".toList) token =
      "ws://".toList ++ host ++ "/cable?token=".toList ++ encodeURIComponent token := by
  have hsdrop := List.drop_left "https://".toList host
  simp only [List.length_cons] at hsdrop
  have hdrop := List.drop_left "http://".toList host
  simp only [List.length_cons] at hdrop
  have hspre1 : "https".toList.isPrefixOf ("https://".toList ++ host) = true := by
    simp [List.isPrefixOf]
  have hspre2 : "https://".toList.isPrefixOf ("https://".toList ++ host) = true := by
    simp [List.isPrefixOf]
  have hpre1 : "https".toList.isPrefixOf ("http://".toList ++ host) = false := by
    simp [List.isPrefixOf]
  have hpre2 : "https://".toList.isPrefixOf ("http://".toList ++ host) = false := by
    simp [List.isPrefixOf]
  have hpre3 : "http://".toList.isPrefixOf ("http://".toList ++ host) = true := by
    simp [List.isPrefixOf]
  refine ⟨?_, ?_, ?_, ?_⟩
  · have hbase : stripTrailingSlashL ("https://".toList ++ host) =
        "https://".toList ++ host := by
      simp only [stripTrailingSlashL]
      rw [List.getLast?_append_of_ne_nil _ h0, if_neg h1]
    simp only [buildWsUrl, dropUrlScheme]
    rw [hbase, hspre1, hspre2]
    simp [hsdrop]
  · have hassoc : "https://".toList ++ host ++ "/".toList =
        ("https://".toList ++ host) ++ ['/'] := by simp
    have hbase : stripTrailingSlashL ("https://".toList ++ host ++ "/".toList) =
        "https://".toList ++ host := by
      rw [hassoc]
      simp only [stripTrailingSlashL]
      rw [List.getLast?_concat, if_pos rfl]
      exact List.dropLast_concat
    simp only [buildWsUrl, dropUrlScheme]
    rw [hbase, hspre1, hspre2]
    simp [hsdrop]
  · have hbase : stripTrailingSlashL ("http://".toList ++ host) =
        "http://".toList ++ host := by
      simp only [stripTrailingSlashL]
      rw [List.getLast?_append_of_ne_nil _ h0, if_neg h1]
    simp only [buildWsUrl, dropUrlScheme]
    rw [hbase, hpre1, hpre2, hpre3]
    simp [hdrop]
  · have hassoc : "http://".toList ++ host ++ "/".toList =
        ("http://".toList ++ host) ++ ['/'] := by simp
    have hbase : stripTrailingSlashL ("http://".toList ++ host ++ "/".toList) =
        "http://".toList ++ host := by
      rw [hassoc]
      simp only [stripTrailingSlashL]
      rw [List.getLast?_concat, if_pos rfl]
      exact List.dropLast_concat
    simp only [buildWsUrl, dropUrlScheme]
    rw [hbase, hpre1, hpre2, hpre3]
    simp [hdrop]

/-- Claim C9, witness: the URLs of the reference configuration. -/
theorem buildWsUrl_schemeAndPath_witness :
    ("dashbot.example.com".toList ≠ [] ∧
      "dashbot.example.com".toList.getLast? ≠ some '/') ∧
    buildWsUrl ("https://".toList ++ "dashbot.example.com".toList) "test-token".toList =
      "wss://".toList ++ "dashbot.example.com".toList ++ "/cable?token=".toList ++
        encodeURIComponent "test-token".toList :=
  ⟨⟨by decide, by decide⟩,
    (buildWsUrl_schemeAndPath "dashbot.example.com".toList "test-token".toList
      (by decide) (by decide)).1⟩

/-- The chunking loop on the empty string yields no chunk. -/
theorem chunkerGo_nil (limit : Nat) : chunkerGo limit [] = [] := by
  rw [chunkerGo]
  simp

/-- For a positive limit the chunking loop yields no chunk only on the empty
string. -/
theorem chunkerGo_eq_nil_iff (limit : Nat) (hl : limit ≠ 0) (cs : List Char) :
    chunkerGo limit cs = [] ↔ cs = [] := by
  constructor
  · intro h
    by_contra hne
    rw [chunkerGo, dif_neg hne, dif_neg hl] at h
    cases h
  · intro h
    subst h
    exact chunkerGo_nil limit

/-- Concatenating the chunks of the loop restores the input. -/
theorem chunkerGo_flatten_aux (limit : Nat) (hl : limit ≠ 0) :
    ∀ n cs, List.length cs ≤ n → (chunkerGo limit cs).flatten = cs := by
  intro n
  induction n with
  | zero =>
      intro cs hlen
      have hcs : cs = [] := List.eq_nil_of_length_eq_zero (Nat.le_zero.mp hlen)
      subst hcs
      simp [chunkerGo_nil]
  | succ n ih =>
      intro cs hlen
      by_cases hcs : cs = []
      · subst hcs
        simp [chunkerGo_nil]
      · rw [chunkerGo, dif_neg hcs, dif_neg hl, List.flatten_cons,
          ih (cs.drop limit) ?_, List.take_append_drop]
        have hpos : 0 < cs.length := List.length_pos.mpr hcs
        simp only [List.length_drop]
        omega

/-- Every chunk of the loop has length at most the limit. -/
theorem chunkerGo_length_le_aux (limit : Nat) (hl : limit ≠ 0) :
    ∀ n cs, List.length cs ≤ n → ∀ l ∈ chunkerGo limit cs, l.length ≤ limit := by
  intro n
  induction n with
  | zero =>
      intro cs hlen l hm
      have hcs : cs = [] := List.eq_nil_of_length_eq_zero (Nat.le_zero.mp hlen)
      subst hcs
      rw [chunkerGo_nil] at hm
      cases hm
  | succ n ih =>
      intro cs hlen l hm
      by_cases hcs : cs = []
      · subst hcs
        rw [chunkerGo_nil] at hm
        cases hm
      · rw [chunkerGo, dif_neg hcs, dif_neg hl, List.mem_cons] at hm
        rcases hm with rfl | hm
        · exact List.length_take_le limit cs
        · refine ih (cs.drop limit) ?_ l hm
          have hpos : 0 < cs.length := List.length_pos.mpr hcs
          simp only [List.length_drop]
          omega

/-- Every chunk of the loop except the last has length exactly the limit. -/
theorem chunkerGo_dropLast_aux (limit : Nat) (hl : limit ≠ 0) :
    ∀ n cs, List.length cs ≤ n →
      ∀ l ∈ (chunkerGo limit cs).dropLast, l.length = limit := by
  intro n
  induction n with
  | zero =>
      intro cs hlen l hm
      have hcs : cs = [] := List.eq_nil_of_length_eq_zero (Nat.le_zero.mp hlen)
      subst hcs
      rw [chunkerGo_nil] at hm
      cases hm
  | succ n ih =>
      intro cs hlen l hm
      by_cases hcs : cs = []
      · subst hcs
        rw [chunkerGo_nil] at hm
        cases hm
      · rw [chunkerGo, dif_neg hcs, dif_neg hl] at hm
        by_cases hrest : cs.drop limit = []
        · rw [hrest, chunkerGo_nil] at hm
          cases hm
        · have hne : chunkerGo limit (cs.drop limit) ≠ [] :=
            fun h => hrest ((chunkerGo_eq_nil_iff limit hl (cs.drop limit)).mp h)
          rw [List.dropLast_cons_of_ne_nil hne, List.mem_cons] at hm
          rcases hm with rfl | hm
          · -- the head chunk: the remainder is nonempty, so `limit < cs.length`
            have hlt : limit < cs.length := by
              by_contra hge
              exact hrest (List.drop_eq_nil_of_le (Nat.le_of_not_lt hge))
            rw [List.length_take]
            omega
          · refine ih (cs.drop limit) ?_ l hm
            have hpos : 0 < cs.length := List.length_pos.mpr hcs
            simp only [List.length_drop]
            omega

/-- Claim C10 (confirmed): for every string and positive limit the chunker
returns a non-empty list of chunks whose concatenation is the input, every
chunk has length at most the limit, every chunk but the last has length
exactly the limit, and an input no longer than the limit is returned whole
as the single chunk. -/
theorem chunker_spec (text : List Char) (limit : Nat) (hl : 0 < limit) :
    chunker text limit ≠ [] ∧
    (chunker text limit).flatten = text ∧
    (∀ l ∈ chunker text limit, l.length ≤ limit) ∧
    (∀ l ∈ (chunker text limit).dropLast, l.length = limit) ∧
    (text.length ≤ limit → chunker text limit = [text]) := by
  have hl0 : limit ≠ 0 := Nat.pos_iff_ne_zero.mp hl
  by_cases hle : text.length ≤ limit
  · have hres : chunker text limit = [text] := by simp [chunker, hle]
    rw [hres]
    refine ⟨by simp, by simp, ?_, ?_, fun _ => rfl⟩
    · intro l hm
      rw [List.mem_singleton] at hm
      subst hm
      exact hle
    · intro l hm
      simp at hm
  · have htne : text ≠ [] := by
      intro h
      rw [h] at hle
      simp at hle
    rw [chunker, if_neg hle]
    refine ⟨?_, ?_, ?_, ?_, fun h => absurd h hle⟩
    · intro h
      exact htne ((chunkerGo_eq_nil_iff limit hl0 text).mp h)
    · exact chunkerGo_flatten_aux limit hl0 text.length text le_rfl
    · exact chunkerGo_length_le_aux limit hl0 text.length text le_rfl
    · exact chunkerGo_dropLast_aux limit hl0 text.length text le_rfl

/-- Claim C10, witness: chunking an eleven-character string with limit 4. -/
theorem chunker_spec_witness :
    0 < 4 ∧
    (chunker "hello world".toList 4 ≠ [] ∧
      (chunker "hello world".toList 4).flatten = "hello world".toList ∧
      (∀ l ∈ chunker "hello world".toList 4, l.length ≤ 4) ∧
      (∀ l ∈ (chunker "hello world".toList 4).dropLast, l.length = 4) ∧
      (("hello world".toList).length ≤ 4 → chunker "hello world".toList 4 =
        ["hello world".toList])) :=
  ⟨by decide, chunker_spec "hello world".toList 4 (by decide)⟩
